import Mathlib

/-!
Verification of the gobject type-definition compiler core
(src/core/type_definition.rs, src/core/class.rs, src/core/util.rs).

The Rust sources are proc-macro code over `syn` ASTs.  We shallowly embed
the fragments of the `syn` data model that the analysed functions inspect
(paths, visibilities, struct fields, module items) and translate the
analysed functions themselves.  Code generation functions (`quote!` blocks)
are embedded by their runtime semantics: the generated statement sequence is
represented as data and interpreted by an explicit small-step executor.

Functions that live in files of the repository that are not part of src/
(`property.rs`, `validations.rs`) are modelled from the specification; each
such definition carries a doc comment starting with `Modelled from the spec:`.
-/

namespace GObj

/-! ### syn-like AST fragments (data model) -/

/-- Embeds `syn::Path` restricted to what the analysed code inspects:
the optional leading `::` and the segment identifiers. -/
structure RsPath where
  leadingColon : Bool
  segments : List String
deriving DecidableEq

/-- Embeds `syn::Visibility` (syn 1.x): `pub`, `crate`, `pub(...)
restricted`, and inherited (private). -/
inductive Visibility where
  | public
  | crateVis
  | restricted (p : RsPath)
  | inherited
deriving DecidableEq

/-- The field types the embedding distinguishes: the hidden interface
header type `#glib::gobject_ffi::GTypeInterface` versus user field types. -/
inductive FieldTy where
  | gtypeInterface
  | user (s : String)
deriving DecidableEq

/-- Embeds `syn::Field`: optional identifier (named vs tuple field) and type. -/
structure Field where
  ident : Option String
  ty : FieldTy
deriving DecidableEq

/-- Embeds `syn::Fields`: named, unnamed (tuple) or unit. -/
inductive Fields where
  | named (fs : List Field)
  | unnamed (fs : List Field)
  | unit
deriving DecidableEq

/-- Embeds `syn::Type` restricted to what `type_ident` inspects:
a path type (no qself) or anything else. -/
inductive Ty where
  | typePath (p : RsPath)
  | other
deriving DecidableEq

/-- Embeds `syn::ItemStruct`: attribute names, visibility, identifier, fields.
Generics are not carried; no analysed claim inspects them. -/
structure ItemStruct where
  attrs : List String
  vis : Visibility
  ident : String
  fields : Fields
deriving DecidableEq

/-- Embeds `syn::ItemImpl`: attribute names, optional trait path, self type. -/
structure ItemImpl where
  attrs : List String
  traitPath : Option RsPath
  selfTy : Ty
deriving DecidableEq

/-- Embeds `syn::Item` restricted to the alternatives the scans distinguish. -/
inductive Item where
  | itemStruct (s : ItemStruct)
  | itemImpl (i : ItemImpl)
  | itemOther
deriving DecidableEq

/-- Embeds `TypeBase` (type_definition.rs line 47). -/
inductive TypeBase where
  | classBase
  | interfaceBase
deriving DecidableEq

/-- Embeds `Concurrency` (type_definition.rs line 53). -/
inductive Concurrency where
  | noneConc
  | sendSync
deriving DecidableEq

/-! ### util.rs -/

/-- Embeds `char::is_ascii_alphabetic` used by util.rs `is_valid_name`. -/
def isAsciiAlphabetic (c : Char) : Bool :=
  ('a' ≤ c && c ≤ 'z') || ('A' ≤ c && c ≤ 'Z')

/-- Embeds `char::is_ascii_alphanumeric` used by util.rs `is_valid_name`. -/
def isAsciiAlphanumeric (c : Char) : Bool :=
  isAsciiAlphabetic c || ('0' ≤ c && c ≤ '9')

/-- Embeds util.rs `is_valid_name` (lines 132-147); the input is the
character sequence of the `&str`. -/
def is_valid_name : List Char → Bool
  | [] => false
  | c :: rest =>
    if !isAsciiAlphabetic c then false
    else rest.all (fun d => isAsciiAlphanumeric d || d == '-' || d == '_')

/-! ### type_definition.rs: helpers -/

/-- Embeds `syn::Path::is_ident`: no leading colon, exactly one segment
equal to the given identifier. -/
def RsPath.isIdent (p : RsPath) (s : String) : Bool :=
  (!p.leadingColon) && (p.segments == [s])

/-- Renders a path segment list the way `to_token_stream` + join("")
renders it: segments separated by `::`. -/
def renderSegments : List String → String
  | [] => ""
  | [s] => s
  | s :: rest => s ++ "::" ++ renderSegments rest

/-- Renders a full path, with the leading `::` when present. -/
def RsPath.render (p : RsPath) : String :=
  (if p.leadingColon then "::" else "") ++ renderSegments p.segments

/-- Embeds `is_marker` (type_definition.rs lines 92-107): the path is the
bare marker identifier or one of the four absolute std/core spellings. -/
def is_marker (p : RsPath) (marker : String) : Bool :=
  RsPath.isIdent p marker ||
    (RsPath.render p == "std::marker::" ++ marker ||
     RsPath.render p == "::std::marker::" ++ marker ||
     RsPath.render p == "core::marker::" ++ marker ||
     RsPath.render p == "::core::marker::" ++ marker)

/-- Embeds `type_ident` (type_definition.rs lines 76-84): a path type with
no leading colon and exactly one segment yields its identifier. -/
def type_ident : Ty → Option String
  | Ty.typePath ⟨false, [s]⟩ => some s
  | _ => none

/-- The initial `inner_vis` value `parse_quote! { pub(super) }`
(type_definition.rs line 127). -/
def pubSuperVis : Visibility := Visibility.restricted ⟨false, ["super"]⟩

/-! ### type_definition.rs: TypeDefinition::parse (lines 110-368)

The parse function is embedded in pieces that follow its control flow:
item selection (lines 152-237), struct-visibility resolution (244-267),
property extraction and interface-header insertion (270-295), and the
concurrency scan (297-317).  Signal/method extraction mutates only the
impl-block items and is not observable through any analysed claim. -/

/-- Embeds the explicit-name struct search (lines 155-159): the first
struct whose identifier equals the given name, with its index. -/
def findStructNamed (n : String) : List Item → Nat → Option (Nat × ItemStruct)
  | [], _ => none
  | Item.itemStruct s :: rest, idx =>
    if s.ident = n then some (idx, s) else findStructNamed n rest (idx + 1)
  | _ :: rest, idx => findStructNamed n rest (idx + 1)

/-- Embeds the named impl search (lines 160-167 and 199-210): the first
inherent (no trait) impl whose self type is the given identifier. -/
def findImplNamed (n : String) : List Item → Nat → Option (Nat × ItemImpl)
  | [], _ => none
  | Item.itemImpl i :: rest, idx =>
    if i.traitPath = none ∧ type_ident i.selfTy = some n then some (idx, i)
    else findImplNamed n rest (idx + 1)
  | _ :: rest, idx => findImplNamed n rest (idx + 1)

/-- Embeds the no-name struct scan loop (lines 176-189): returns the first
`#[properties]`-tagged struct (early exit) and the first struct recorded
while no tagged one was found. -/
def structScan : List Item → Nat → Option (Nat × ItemStruct) →
    Option (Nat × ItemStruct) × Option (Nat × ItemStruct)
  | [], _, firstStruct => (none, firstStruct)
  | Item.itemStruct s :: rest, idx, firstStruct =>
    if "properties" ∈ s.attrs then (some (idx, s), firstStruct)
    else if firstStruct = none then structScan rest (idx + 1) (some (idx, s))
    else structScan rest (idx + 1) firstStruct
  | _ :: rest, idx, firstStruct => structScan rest (idx + 1) firstStruct

/-- Embeds lines 176-197: tagged struct preferred, else fall back to the
first struct. -/
def structSel (items : List Item) : Option (Nat × ItemStruct) :=
  let ts := structScan items 0 none
  match ts.1 with
  | some js => some js
  | none => ts.2

/-- Embeds the no-name impl scan loop (lines 212-235): a `#[methods]`-tagged
inherent impl is preferred (early exit, adopting its self-type identifier),
else the first inherent impl; the second component is the recorded name. -/
def implScanNoName : List Item → Nat → Option (Nat × ItemImpl) → Option String →
    Option (Nat × ItemImpl) × Option String
  | [], _, firstImpl, implName => (firstImpl, implName)
  | Item.itemImpl i :: rest, idx, firstImpl, implName =>
    if i.traitPath = none then
      if "methods" ∈ i.attrs then (some (idx, i), type_ident i.selfTy)
      else if firstImpl = none then
        implScanNoName rest (idx + 1) (some (idx, i)) (type_ident i.selfTy)
      else implScanNoName rest (idx + 1) firstImpl implName
    else implScanNoName rest (idx + 1) firstImpl implName
  | _ :: rest, idx, firstImpl, implName =>
    implScanNoName rest (idx + 1) firstImpl implName

/-- Embeds the whole item-selection phase (lines 152-237): the selected
struct, the selected methods impl and the resolved name. -/
def selectItems (name0 : Option String) (items : List Item) :
    Option (Nat × ItemStruct) × Option (Nat × ItemImpl) × Option String :=
  match name0 with
  | some n => (findStructNamed n items 0, findImplNamed n items 0, some n)
  | none =>
    match structSel items with
    | some (j, s) => (some (j, s), findImplNamed s.ident items 0, some s.ident)
    | none =>
      match implScanNoName items 0 none none with
      | (imp, implName) =>
        (none, imp, match imp with
                    | some _ => implName
                    | none => none)

/-- Embeds the struct-visibility match (lines 244-267).  Returns the
rewritten struct visibility, `def.vis` and `def.inner_vis` in that order;
`innerVis0` is the `inner_vis` value in scope (`pub(super)`), and `def.vis`
starts as `Inherited`. -/
def applyStructVisibility (innerVis0 : Visibility) (sv : Visibility) :
    Visibility × Visibility × Visibility :=
  match sv with
  | Visibility.inherited => (innerVis0, Visibility.inherited, innerVis0)
  | Visibility.restricted p =>
    if p.segments.length = 1 ∧ p.segments.headD "" = "self" then
      (innerVis0, Visibility.inherited, innerVis0)
    else if 1 < p.segments.length ∧ p.segments.headD "" = "super" then
      (Visibility.restricted p,
       Visibility.restricted ⟨false, p.segments.drop 1⟩,
       Visibility.restricted p)
    else (Visibility.restricted p, Visibility.restricted p, Visibility.restricted p)
  | _ => (sv, sv, sv)

/-- Modelled from the spec: `Properties::from_derive_input` lives in
src/property.rs, which is not under src/.  Per the spec (§3, Property
lifecycle) property records are "created during struct-field extraction";
the extraction consumes the per-field property annotations and returns the
field list otherwise unchanged, in declaration order.  Only the returned
fields are observable through the analysed claims. -/
def propertiesFromDeriveInput (fields : Fields) : Fields := fields

/-- The hidden leading named field `____parent: #glib::gobject_ffi::GTypeInterface`
(type_definition.rs lines 280-283). -/
def namedHeaderField : Field := { ident := some "____parent", ty := FieldTy.gtypeInterface }

/-- The hidden leading unnamed field of type `GTypeInterface`
(type_definition.rs lines 286-290). -/
def unnamedHeaderField : Field := { ident := none, ty := FieldTy.gtypeInterface }

/-- Embeds the interface-header insertion (lines 277-294): the header field
is inserted at position 0 for named and unnamed field lists; a unit field
list matches the final `_ => {}` arm and is left unchanged. -/
def insertInterfaceHeader : Fields → Fields
  | Fields.named fs => Fields.named (namedHeaderField :: fs)
  | Fields.unnamed fs => Fields.unnamed (unnamedHeaderField :: fs)
  | Fields.unit => Fields.unit

/-- Embeds the Send/Sync scan loop (lines 299-313): folds over all items,
setting the send (resp. sync) flag when an impl of a Send (resp. Sync)
marker trait for the struct type is seen. -/
def concurrencyScan (n : String) : List Item → Bool → Bool → Bool × Bool
  | [], send, sync => (send, sync)
  | Item.itemImpl i :: rest, send, sync =>
    if type_ident i.selfTy = some n then
      match i.traitPath with
      | some p =>
        if is_marker p "Send" then concurrencyScan n rest true sync
        else if is_marker p "Sync" then concurrencyScan n rest send true
        else concurrencyScan n rest send sync
      | none => concurrencyScan n rest send sync
    else concurrencyScan n rest send sync
  | _ :: rest, send, sync => concurrencyScan n rest send sync

/-- The observable outcome of `TypeDefinition::parse` for the analysed claims. -/
structure ParseResult where
  name : Option String
  vis : Visibility
  innerVis : Visibility
  structVis : Option Visibility
  concurrency : Concurrency
  propertiesItemIndex : Option Nat
  methodsItemIndex : Option Nat
  fields : Option Fields
deriving DecidableEq

/-- Embeds the struct-selected branch of parse (lines 238-317): visibility
resolution, name adoption, property extraction, interface-header insertion
and the class-only concurrency elevation. -/
def parseWithStruct (base : TypeBase) (items : List Item) (j : Nat) (s : ItemStruct)
    (impl_ : Option (Nat × ItemImpl)) : ParseResult :=
  let vres := applyStructVisibility pubSuperVis s.vis
  let fields1 := propertiesFromDeriveInput s.fields
  let fields2 := if base = TypeBase.interfaceBase then insertInterfaceHeader fields1 else fields1
  let conc :=
    if base = TypeBase.classBase then
      match concurrencyScan s.ident items false false with
      | (send, sync) => if send && sync then Concurrency.sendSync else Concurrency.noneConc
    else Concurrency.noneConc
  { name := some s.ident
    vis := vres.2.1
    innerVis := vres.2.2
    structVis := some vres.1
    concurrency := conc
    propertiesItemIndex := some j
    methodsItemIndex := impl_.map (fun x => x.1)
    fields := some fields2 }

/-- Embeds the no-struct branch of parse (lines 318-331): `def.vis` becomes
the module visibility and `def.inner_vis` is promoted from it. -/
def parseNoStruct (moduleVis : Visibility) (impl_ : Option (Nat × ItemImpl))
    (nm : Option String) : ParseResult :=
  let innerVis :=
    match moduleVis with
    | Visibility.inherited => pubSuperVis
    | Visibility.restricted p =>
      if p.segments.length = 1 ∧ p.segments.headD "" = "self" then pubSuperVis
      else if p.segments ≠ [] ∧ p.segments.headD "" = "super" then
        Visibility.restricted ⟨false, "super" :: p.segments⟩
      else Visibility.restricted p
    | _ => moduleVis
  { name := nm
    vis := moduleVis
    innerVis := innerVis
    structVis := none
    concurrency := Concurrency.noneConc
    propertiesItemIndex := none
    methodsItemIndex := impl_.map (fun x => x.1)
    fields := none }

/-- Embeds `TypeDefinition::parse` (lines 110-368) restricted to its
observable outcome: item selection followed by the struct or no-struct
branch.  `moduleVis` is the module's own visibility; the module is assumed
to have a body (the body-less case only pushes a structural error). -/
def parse (moduleVis : Visibility) (base : TypeBase) (name0 : Option String)
    (items : List Item) : ParseResult :=
  match selectItems name0 items with
  | (some (j, s), impl_, _) => parseWithStruct base items j s impl_
  | (none, impl_, nm) => parseNoStruct moduleVis impl_ nm

/-! ### class.rs: Attrs and validation (lines 11-42) -/

/-- Embeds the class `Attrs` option struct (class.rs lines 13-25) restricted
to the fields validation inspects: the explicit `name` parameter and the
`abstract`/`final` flags. -/
structure Attrs where
  name : Option String
  abstract_ : Bool
  final_ : Bool
deriving DecidableEq

/-- The configuration errors `Attrs::validate` can push. -/
inductive ConfigError where
  | missingName
  | conflictingFlags
deriving DecidableEq

/-- Modelled from the spec: `crate::validations::check_flag` lives in
src/validations.rs, which is not under src/.  It reads whether the flag was
declared (its span when set). -/
def check_flag (f : Bool) : Bool := f

/-- Modelled from the spec: `crate::validations::only_one` lives in
src/validations.rs, which is not under src/.  Per the spec the flags are
"mutually exclusive — invariant enforced at validation" and declaring more
than one of them "always yields exactly one configuration error"; so the
check pushes exactly one error when more than one flag is set and nothing
otherwise. -/
def only_one (flags : List (String × Bool)) : List ConfigError :=
  if 1 < (flags.filter (fun nf => nf.2)).length then [ConfigError.conflictingFlags] else []

/-- Embeds `Attrs::validate` (class.rs lines 28-41): pushes the missing-name
error when the explicit `name` parameter is absent (the `TypeDefinition`
argument is used only for the error span), then runs the
mutually-exclusive-flags check on `abstract`/`final`. -/
def Attrs.validate (a : Attrs) : List ConfigError :=
  (if a.name = none then [ConfigError.missingName] else []) ++
  only_one [("abstract", check_flag a.abstract_), ("final", check_flag a.final_)]

/-- Distinguishes the modifier-related configuration error. -/
def isModifierError : ConfigError → Bool
  | ConfigError.conflictingFlags => true
  | _ => false

/-! ### class.rs: parent type (lines 178-186) -/

/-- The parent type computed for a class: an explicit path or the root
object type `#glib::Object`. -/
inductive ParentType where
  | path (p : RsPath)
  | glibObject
deriving DecidableEq

/-- Embeds the extends/glib context of `ClassDefinition` needed by
`parent_type`: whether `inner.glib()` is available (it returns `Option` in
class.rs) and the `extends` list. -/
structure ClassParentCtx where
  glibAvailable : Bool
  extendsList : List RsPath
deriving DecidableEq

/-- Embeds `ClassDefinition::parent_type` (class.rs lines 178-186): the
first entry of `extends`, or `#glib::Object` when `extends` is empty. -/
def parent_type (c : ClassParentCtx) : Option ParentType :=
  if c.glibAvailable then
    some (match c.extendsList.head? with
          | some p => ParentType.path p
          | none => ParentType.glibObject)
  else none

/-! ### class.rs: property dispatch (lines 332-401)

`set_property_method`/`property_method` emit, for a nonempty property list,
one branch per enumerated property (via `Property::set_impl`/`get_impl`)
followed by the fatal `unimplemented!("invalid property id ...")` fault.
The emitted body is embedded as the list of 0-based indices that received a
branch; the runtime behaviour of the generated function is the
interpretation of that list against a numeric id. -/

/-- A registered property descriptor (only its name is observable here). -/
structure PSpec where
  name : String
deriving DecidableEq

/-- Modelled from the spec: `Property::set_impl` lives in src/property.rs,
which is not under src/.  Per spec §4.2 the setter dispatch must "branch on
ID and invoke the matching property's custom setter if present or a default
field assignment otherwise", so every declared property contributes a
branch guarded by its own 1-based id (`index + 1`). -/
def set_impl (index : Nat) (_p : PSpec) : Option Nat := some index

/-- Modelled from the spec: `Property::get_impl`, symmetric to `set_impl`
(spec §4.2, "Emit the symmetric getter dispatch function"). -/
def get_impl (index : Nat) (_p : PSpec) : Option Nat := some index

/-- Embeds `.iter().enumerate().filter_map(...)` over the property list. -/
def enumFilterMap (f : Nat → PSpec → Option Nat) : Nat → List PSpec → List Nat
  | _, [] => []
  | i, p :: rest =>
    match f i p with
    | some b => b :: enumFilterMap f (i + 1) rest
    | none => enumFilterMap f (i + 1) rest

/-- Embeds `ClassDefinition::set_property_method` (class.rs lines 345-373):
absent when the property list is empty or the crate/name context is
unavailable; otherwise the branch list followed by the fault. -/
def set_property_method (props : List PSpec) (crateIdent : Option String)
    (name : Option String) : Option (List Nat) :=
  if props.isEmpty then none
  else
    match crateIdent, name with
    | some _, some _ => some (enumFilterMap set_impl 0 props)
    | _, _ => none

/-- Embeds `ClassDefinition::property_method` (class.rs lines 374-401),
identical in dispatch structure to the setter. -/
def property_method (props : List PSpec) (crateIdent : Option String)
    (name : Option String) : Option (List Nat) :=
  if props.isEmpty then none
  else
    match crateIdent, name with
    | some _, some _ => some (enumFilterMap get_impl 0 props)
    | _, _ => none

/-- Outcome of one generated dispatch call. -/
inductive DispatchOutcome where
  | handled (index : Nat)
  | invalidIdFault
deriving DecidableEq

/-- Runs the generated dispatch body on a numeric id: each branch `b` in
order handles `id = b + 1` and returns; when no branch matches, control
falls through to `unimplemented_property` (class.rs lines 332-344), the
fatal invalid-property-id fault. -/
def runDispatch : List Nat → Nat → DispatchOutcome
  | [], _ => DispatchOutcome.invalidIdFault
  | b :: rest, id => if id = b + 1 then DispatchOutcome.handled b else runDispatch rest id

/-! ### type_definition.rs: properties registration (lines 580-621)

`TypeDefinition::properties_method` emits a lazily-initialized registration
function whose body builds a vector: the parent extension statement (when a
user `properties` method exists), the custom override statements, the
base-index marker (class with nonempty declared properties and a parent
extension), then the declared descriptors.  We embed the emitted body as a
statement list and interpret it. -/

/-- One statement of the generated `properties()` body.  Custom override
statements are arbitrary user code; they are abstracted by the entries they
append to the vector. -/
inductive PStmt where
  | extendParentProps (entries : List PSpec)
  | customBlock (entries : List PSpec)
  | setBaseIndex
  | extendDeclared (entries : List PSpec)
deriving DecidableEq

/-- The inputs of `properties_method`: the type base, whether a user
`properties` method exists (`has_method`), the custom override statements
(`custom_stmts_for("properties")`), the declared property descriptors in
declaration order, and the entries the parent extension contributes at
runtime. -/
structure PropsMethodInput where
  base : TypeBase
  hasMethod : Bool
  custom : Option (List PSpec)
  decls : List PSpec
  parentEntries : List PSpec
deriving DecidableEq

/-- Embeds `TypeDefinition::properties_method` (lines 580-621): `none` when
there are no declared properties, no user method and no custom statements;
otherwise the emitted body in emission order. -/
def properties_method (inp : PropsMethodInput) : Option (List PStmt) :=
  if inp.decls.isEmpty ∧ inp.hasMethod = false ∧ inp.custom = none then none
  else
    some ((if inp.hasMethod then [PStmt.extendParentProps inp.parentEntries] else []) ++
      (match inp.custom with
       | some es => [PStmt.customBlock es]
       | none => []) ++
      (if inp.base = TypeBase.classBase ∧ ¬inp.decls.isEmpty ∧ inp.hasMethod then
        [PStmt.setBaseIndex]
       else []) ++
      [PStmt.extendDeclared inp.decls])

/-- Runtime state of the generated registration body: the vector under
construction and the `_GENERATED_PROPERTIES_BASE_INDEX` cell. -/
structure RegState where
  props : List PSpec
  baseIndex : Option Nat
deriving DecidableEq

/-- Executes one statement of the generated registration body. -/
def execPStmt (st : RegState) : PStmt → RegState
  | PStmt.extendParentProps es => { st with props := st.props ++ es }
  | PStmt.customBlock es => { st with props := st.props ++ es }
  | PStmt.setBaseIndex => { st with baseIndex := some st.props.length }
  | PStmt.extendDeclared es => { st with props := st.props ++ es }

/-- Executes the generated registration body from the empty vector. -/
def runPropsBody (stmts : List PStmt) : RegState :=
  stmts.foldl execPStmt { props := [], baseIndex := none }

/-- The code-contributed entries preceding the declared descriptors:
parent extension first, then the custom-statement contributions. -/
def codeContributed (inp : PropsMethodInput) : List PSpec :=
  (if inp.hasMethod then inp.parentEntries else []) ++ inp.custom.getD []

/-! ### Specification-side helper definitions

These state the claims' notions (first tagged struct, marker impl presence,
claim-predicted shapes) independently of the scan loops, so the theorems
compare the embedded code against them. -/

/-- The first `#[properties]`-tagged struct of the module, with its index. -/
def firstTagged : List Item → Option (Nat × ItemStruct)
  | [] => none
  | Item.itemStruct s :: rest =>
    if "properties" ∈ s.attrs then some (0, s)
    else (firstTagged rest).map (fun js => (js.1 + 1, js.2))
  | _ :: rest => (firstTagged rest).map (fun js => (js.1 + 1, js.2))

/-- The first struct of the module, with its index. -/
def firstStructP : List Item → Option (Nat × ItemStruct)
  | [] => none
  | Item.itemStruct s :: _ => some (0, s)
  | _ :: rest => (firstStructP rest).map (fun js => (js.1 + 1, js.2))

/-- Whether an item is an implementation block applying the given marker
trait directly to the type named `n`. -/
def isMarkerImplFor (n marker : String) : Item → Bool
  | Item.itemImpl i =>
    if type_ident i.selfTy = some n then
      match i.traitPath with
      | some p => is_marker p marker
      | none => false
    else false
  | _ => false

/-- Whether the module contains an implementation block applying the given
marker trait directly to the type named `n`. -/
def hasMarkerImpl (items : List Item) (n : String) (marker : String) : Bool :=
  items.any (isMarkerImplFor n marker)

/-- The list of branch indices `k, k+1, ..., k+n-1`, used to characterize
the emitted dispatch branches. -/
def idxRange : Nat → Nat → List Nat
  | _, 0 => []
  | k, n + 1 => k :: idxRange (k + 1) n

/-- The claim's "any other explicit visibility" case: not inherited, and for
restricted paths neither the self-scoped nor the multi-segment
super-relative shape. -/
def otherExplicitVis (sv : Visibility) : Prop :=
  sv ≠ Visibility.inherited ∧
  ∀ p, sv = Visibility.restricted p →
    ¬(p.segments.length = 1 ∧ p.segments.headD "" = "self") ∧
    ¬(1 < p.segments.length ∧ p.segments.headD "" = "super")

/-- The claim's predicted shape for interface structs: the first field
exists and is the hidden interface header. -/
def headerLeads : Option Fields → Bool
  | some (Fields.named (f :: _)) => f.ty == FieldTy.gtypeInterface
  | some (Fields.unnamed (f :: _)) => f.ty == FieldTy.gtypeInterface
  | _ => false

/-! ## Theorems -/

/-! ### Helper lemmas -/

theorem enumFilterMap_set_impl (props : List PSpec) :
    ∀ k, enumFilterMap set_impl k props = idxRange k props.length := by
  induction props with
  | nil => intro k; simp [enumFilterMap, idxRange]
  | cons p rest ih => intro k; simp [enumFilterMap, set_impl, idxRange, ih]

theorem enumFilterMap_get_impl (props : List PSpec) :
    ∀ k, enumFilterMap get_impl k props = idxRange k props.length := by
  induction props with
  | nil => intro k; simp [enumFilterMap, idxRange]
  | cons p rest ih => intro k; simp [enumFilterMap, get_impl, idxRange, ih]

theorem runDispatch_idxRange (n : Nat) :
    ∀ k id, runDispatch (idxRange k n) id =
      if k + 1 ≤ id ∧ id ≤ k + n then DispatchOutcome.handled (id - 1)
      else DispatchOutcome.invalidIdFault := by
  induction n with
  | zero =>
    intro k id
    rw [if_neg (by omega)]
    simp [idxRange, runDispatch]
  | succ n ih =>
    intro k id
    simp only [idxRange, runDispatch]
    by_cases h : id = k + 1
    · subst h
      rw [if_pos rfl, if_pos (by omega)]
      simp
    · rw [if_neg h, ih (k + 1) id]
      by_cases h2 : k + 1 ≤ id ∧ id ≤ k + (n + 1)
      · rw [if_pos (by omega), if_pos h2]
      · rw [if_neg (by omega), if_neg h2]

/-! ### Claim theorems: util.rs and class.rs basics -/

/-- Claim C10: a member name string is accepted by `is_valid_name` exactly
when it is non-empty, starts with an ASCII letter and continues with ASCII
letters, ASCII digits, `-` or `_`. -/
theorem is_valid_name_iff (cs : List Char) :
    is_valid_name cs = true ↔
      ∃ c rest, cs = c :: rest ∧ isAsciiAlphabetic c = true ∧
        ∀ d ∈ rest, (isAsciiAlphanumeric d = true ∨ d = '-' ∨ d = '_') := by
  cases cs with
  | nil => simp [is_valid_name]
  | cons c rest =>
    simp only [is_valid_name]
    by_cases h : isAsciiAlphabetic c
    · rw [h]
      simp only [Bool.not_true, Bool.false_eq_true, if_false, List.all_eq_true]
      constructor
      · intro hall
        refine ⟨c, rest, rfl, h, fun d hd => ?_⟩
        have := hall d hd
        simpa [Bool.or_eq_true, beq_iff_eq, or_assoc] using this
      · rintro ⟨c2, rest2, heq, _, hall⟩
        cases heq
        intro d hd
        simpa [Bool.or_eq_true, beq_iff_eq, or_assoc] using hall d hd
    · rw [Bool.not_eq_true] at h
      rw [h]
      constructor
      · intro hf
        simp at hf
      · rintro ⟨c2, rest2, heq, ha, _⟩
        cases heq
        rw [h] at ha
        exact absurd ha (by decide)

/-- Claim C4: for every attribute configuration, validation emits exactly
one modifier-related configuration error when both `abstract` and `final`
are declared, and none when at most one is declared. -/
theorem abstract_final_single_conflict_error (a : Attrs) :
    a.validate.filter isModifierError =
      (if a.abstract_ && a.final_ then [ConfigError.conflictingFlags] else []) := by
  rcases a with ⟨nm, ab, fi⟩
  cases nm <;> cases ab <;> cases fi <;>
    simp [Attrs.validate, only_one, check_flag, isModifierError]

/-- Claim C8: the computed parent type is the first entry of `extends` when
the list is non-empty, and the root object type `glib::Object` otherwise. -/
theorem parent_type_first_extends_or_object (c : ClassParentCtx)
    (hg : c.glibAvailable = true) :
    (∀ p rest, c.extendsList = p :: rest → parent_type c = some (ParentType.path p)) ∧
    (c.extendsList = [] → parent_type c = some ParentType.glibObject) := by
  constructor
  · intro p rest h
    simp [parent_type, hg, h]
  · intro h
    simp [parent_type, hg, h]

theorem parent_type_first_extends_or_object_witness :
    parent_type ⟨true, [⟨false, ["gtk", "Widget"]⟩, ⟨false, ["glib", "Object"]⟩]⟩ =
      some (ParentType.path ⟨false, ["gtk", "Widget"]⟩) :=
  (parent_type_first_extends_or_object
      ⟨true, [⟨false, ["gtk", "Widget"]⟩, ⟨false, ["glib", "Object"]⟩]⟩ rfl).1
    ⟨false, ["gtk", "Widget"]⟩ [⟨false, ["glib", "Object"]⟩] rfl

/-- Claim C3 (code evaluation at the failing input): for a class module
whose name is inferred from its `#[properties]` struct and that has no
explicit `name = ...` attribute, `TypeDefinition::parse` resolves the name
to `Foo`, yet `Attrs::validate` still pushes the missing-name configuration
error, because it inspects only the explicit attribute. -/
theorem missing_name_error_despite_inferred_name :
    (parse Visibility.inherited TypeBase.classBase none
        [Item.itemStruct { attrs := ["properties"], vis := Visibility.public,
                           ident := "Foo", fields := Fields.named [] }]).name = some "Foo" ∧
    Attrs.validate { name := none, abstract_ := false, final_ := false } =
      [ConfigError.missingName] := by
  constructor
  · decide
  · decide

/-! ### Claim C1: property dispatch fault behaviour -/

/-- Claim C1: in the generated setter and getter dispatch functions for a
type with N declared properties, every call with a numeric id outside
[1, N] falls through every branch and reaches the fatal
invalid-property-id fault, and every call with an id in [1, N] is handled
by the branch of the property at 0-based index id - 1 and never reaches
the fault. -/
theorem dispatch_fault_iff_id_out_of_range (props : List PSpec) (go nm : Option String)
    (bs : List Nat) (id : Nat)
    (h : set_property_method props go nm = some bs ∨ property_method props go nm = some bs) :
    ((1 ≤ id ∧ id ≤ props.length) → runDispatch bs id = DispatchOutcome.handled (id - 1)) ∧
    ((id = 0 ∨ props.length < id) → runDispatch bs id = DispatchOutcome.invalidIdFault) := by
  have hbs : bs = idxRange 0 props.length := by
    rcases h with h | h
    · simp only [set_property_method] at h
      by_cases hp : props.isEmpty
      · rw [if_pos hp] at h
        exact absurd h (by simp)
      · rw [if_neg hp] at h
        cases go with
        | none => simp at h
        | some g =>
          cases nm with
          | none => simp at h
          | some n =>
            simp only [Option.some.injEq] at h
            rw [← h, enumFilterMap_set_impl]
    · simp only [property_method] at h
      by_cases hp : props.isEmpty
      · rw [if_pos hp] at h
        exact absurd h (by simp)
      · rw [if_neg hp] at h
        cases go with
        | none => simp at h
        | some g =>
          cases nm with
          | none => simp at h
          | some n =>
            simp only [Option.some.injEq] at h
            rw [← h, enumFilterMap_get_impl]
  subst hbs
  constructor
  · intro h1
    rw [runDispatch_idxRange, if_pos (by omega)]
  · intro h1
    rw [runDispatch_idxRange, if_neg (by omega)]

theorem dispatch_fault_iff_id_out_of_range_witness :
    runDispatch [0, 1] 3 = DispatchOutcome.invalidIdFault :=
  (dispatch_fault_iff_id_out_of_range [⟨"a"⟩, ⟨"b"⟩] (some "go") (some "Foo") [0, 1] 3
    (Or.inl (by decide))).2 (by decide)

/-! ### Claim C2: registration table order and base index -/

/-- Claim C2: for every emitted `properties()` body, executing it yields the
code-contributed entries (parent extension, then custom statements) before
the declared descriptors, which appear in declaration order, so the table
is the code-contributed entries followed by all N declared descriptors; and
the base-index cell, exactly when its statement is emitted, is set to the
length of the code-contributed entries. -/
theorem properties_registration_order_and_base_index (inp : PropsMethodInput)
    (stmts : List PStmt) (h : properties_method inp = some stmts) :
    (runPropsBody stmts).props = codeContributed inp ++ inp.decls ∧
    (runPropsBody stmts).props.length = (codeContributed inp).length + inp.decls.length ∧
    (runPropsBody stmts).baseIndex =
      (if inp.base = TypeBase.classBase ∧ ¬inp.decls.isEmpty ∧ inp.hasMethod then
        some (codeContributed inp).length
       else none) := by
  simp only [properties_method] at h
  split at h
  · exact absurd h (by simp)
  · simp only [Option.some.injEq] at h
    subst h
    rcases inp with ⟨base, hasMethod, custom, decls, parentEntries⟩
    simp only at *
    cases hasMethod <;> rcases custom with _ | es <;> cases base <;>
      rcases decls with _ | ⟨d, ds⟩ <;>
      simp_all [runPropsBody, execPStmt, codeContributed] <;> omega

theorem properties_registration_order_and_base_index_witness :
    (runPropsBody [PStmt.extendParentProps [⟨"x"⟩, ⟨"y"⟩], PStmt.customBlock [⟨"c"⟩],
        PStmt.setBaseIndex, PStmt.extendDeclared [⟨"p"⟩]]).props =
      [⟨"x"⟩, ⟨"y"⟩, ⟨"c"⟩, ⟨"p"⟩] ∧
    (runPropsBody [PStmt.extendParentProps [⟨"x"⟩, ⟨"y"⟩], PStmt.customBlock [⟨"c"⟩],
        PStmt.setBaseIndex, PStmt.extendDeclared [⟨"p"⟩]]).baseIndex = some 3 := by
  have h := properties_registration_order_and_base_index
    ⟨TypeBase.classBase, true, some [⟨"c"⟩], [⟨"p"⟩], [⟨"x"⟩, ⟨"y"⟩]⟩
    [PStmt.extendParentProps [⟨"x"⟩, ⟨"y"⟩], PStmt.customBlock [⟨"c"⟩],
     PStmt.setBaseIndex, PStmt.extendDeclared [⟨"p"⟩]] (by decide)
  exact ⟨h.1.trans (by decide), h.2.2.trans (by decide)⟩

/-! ### Claim C5: struct selection and name inference -/

theorem structScan_fst (items : List Item) :
    ∀ idx acc, (structScan items idx acc).1 =
      (firstTagged items).map (fun js => (js.1 + idx, js.2)) := by
  induction items with
  | nil => intro idx acc; simp [structScan, firstTagged]
  | cons it rest ih =>
    intro idx acc
    cases it with
    | itemStruct s =>
      by_cases hp : "properties" ∈ s.attrs
      · simp [structScan, firstTagged, hp]
      · have e2 : firstTagged (Item.itemStruct s :: rest) =
            (firstTagged rest).map (fun js => (js.1 + 1, js.2)) := by
          simp [firstTagged, hp]
        cases acc with
        | none =>
          have e1 : structScan (Item.itemStruct s :: rest) idx none =
              structScan rest (idx + 1) (some (idx, s)) := by
            simp [structScan, hp]
          rw [e1, ih (idx + 1) (some (idx, s)), e2]
          cases firstTagged rest with
          | none => simp
          | some js => simp [Prod.ext_iff]; omega
        | some a =>
          have e1 : structScan (Item.itemStruct s :: rest) idx (some a) =
              structScan rest (idx + 1) (some a) := by
            simp [structScan, hp]
          rw [e1, ih (idx + 1) (some a), e2]
          cases firstTagged rest with
          | none => simp
          | some js => simp [Prod.ext_iff]; omega
    | itemImpl i =>
      have e1 : structScan (Item.itemImpl i :: rest) idx acc =
          structScan rest (idx + 1) acc := by
        simp [structScan]
      have e2 : firstTagged (Item.itemImpl i :: rest) =
          (firstTagged rest).map (fun js => (js.1 + 1, js.2)) := by
        simp [firstTagged]
      rw [e1, ih (idx + 1) acc, e2]
      cases firstTagged rest with
      | none => simp
      | some js => simp [Prod.ext_iff]; omega
    | itemOther =>
      have e1 : structScan (Item.itemOther :: rest) idx acc =
          structScan rest (idx + 1) acc := by
        simp [structScan]
      have e2 : firstTagged (Item.itemOther :: rest) =
          (firstTagged rest).map (fun js => (js.1 + 1, js.2)) := by
        simp [firstTagged]
      rw [e1, ih (idx + 1) acc, e2]
      cases firstTagged rest with
      | none => simp
      | some js => simp [Prod.ext_iff]; omega

theorem structScan_snd_some (items : List Item) (a : Nat × ItemStruct) :
    ∀ idx, (structScan items idx (some a)).2 = some a := by
  induction items with
  | nil => intro idx; simp [structScan]
  | cons it rest ih =>
    intro idx
    cases it with
    | itemStruct s =>
      by_cases hp : "properties" ∈ s.attrs
      · simp [structScan, hp]
      · have e1 : structScan (Item.itemStruct s :: rest) idx (some a) =
            structScan rest (idx + 1) (some a) := by
          simp [structScan, hp]
        rw [e1]
        exact ih (idx + 1)
    | itemImpl i =>
      have e1 : structScan (Item.itemImpl i :: rest) idx (some a) =
          structScan rest (idx + 1) (some a) := by
        simp [structScan]
      rw [e1]
      exact ih (idx + 1)
    | itemOther =>
      have e1 : structScan (Item.itemOther :: rest) idx (some a) =
          structScan rest (idx + 1) (some a) := by
        simp [structScan]
      rw [e1]
      exact ih (idx + 1)

theorem structScan_snd_none (items : List Item) :
    ∀ idx, firstTagged items = none →
      (structScan items idx none).2 =
        (firstStructP items).map (fun js => (js.1 + idx, js.2)) := by
  induction items with
  | nil => intro idx _; simp [structScan, firstStructP]
  | cons it rest ih =>
    intro idx hnone
    cases it with
    | itemStruct s =>
      by_cases hp : "properties" ∈ s.attrs
      · simp [firstTagged, hp] at hnone
      · have e1 : structScan (Item.itemStruct s :: rest) idx none =
            structScan rest (idx + 1) (some (idx, s)) := by
          simp [structScan, hp]
        rw [e1, structScan_snd_some rest (idx, s) (idx + 1)]
        simp [firstStructP]
    | itemImpl i =>
      have hrest : firstTagged rest = none := by
        simpa [firstTagged] using hnone
      have e1 : structScan (Item.itemImpl i :: rest) idx none =
          structScan rest (idx + 1) none := by
        simp [structScan]
      rw [e1, ih (idx + 1) hrest]
      simp only [firstStructP]
      cases firstStructP rest with
      | none => simp
      | some js => simp [Prod.ext_iff]; omega
    | itemOther =>
      have hrest : firstTagged rest = none := by
        simpa [firstTagged] using hnone
      have e1 : structScan (Item.itemOther :: rest) idx none =
          structScan rest (idx + 1) none := by
        simp [structScan]
      rw [e1, ih (idx + 1) hrest]
      simp only [firstStructP]
      cases firstStructP rest with
      | none => simp
      | some js => simp [Prod.ext_iff]; omega

/-- Claim C5: with no explicit name, the builder selects the first
`#[properties]`-tagged struct (over any earlier untagged struct) and adopts
its identifier as the type name; with no tagged struct it selects the first
struct and adopts that struct's identifier. -/
theorem tagged_struct_selection (mv : Visibility) (base : TypeBase) (items : List Item) :
    (∀ j s, firstTagged items = some (j, s) →
      (parse mv base none items).propertiesItemIndex = some j ∧
      (parse mv base none items).name = some s.ident) ∧
    (firstTagged items = none →
      ∀ j s, firstStructP items = some (j, s) →
        (parse mv base none items).propertiesItemIndex = some j ∧
        (parse mv base none items).name = some s.ident) := by
  constructor
  · intro j s h
    have h1 : structSel items = some (j, s) := by
      simp [structSel, structScan_fst items 0 none, h]
    have h2 : selectItems none items =
        (some (j, s), findImplNamed s.ident items 0, some s.ident) := by
      simp [selectItems, h1]
    simp only [parse]
    rw [h2]
    simp [parseWithStruct]
  · intro hn j s h
    have h1 : structSel items = some (j, s) := by
      simp only [structSel]
      rw [structScan_fst items 0 none, hn]
      simp only [Option.map_none']
      rw [structScan_snd_none items 0 hn]
      simp [h]
    have h2 : selectItems none items =
        (some (j, s), findImplNamed s.ident items 0, some s.ident) := by
      simp [selectItems, h1]
    simp only [parse]
    rw [h2]
    simp [parseWithStruct]

theorem tagged_struct_selection_witness :
    (parse Visibility.inherited TypeBase.classBase none
        [Item.itemStruct ⟨[], Visibility.inherited, "A", Fields.unit⟩,
         Item.itemStruct ⟨["properties"], Visibility.inherited, "B", Fields.named []⟩]
      ).propertiesItemIndex = some 1 ∧
    (parse Visibility.inherited TypeBase.classBase none
        [Item.itemStruct ⟨[], Visibility.inherited, "A", Fields.unit⟩,
         Item.itemStruct ⟨["properties"], Visibility.inherited, "B", Fields.named []⟩]
      ).name = some "B" :=
  (tagged_struct_selection Visibility.inherited TypeBase.classBase
      [Item.itemStruct ⟨[], Visibility.inherited, "A", Fields.unit⟩,
       Item.itemStruct ⟨["properties"], Visibility.inherited, "B", Fields.named []⟩]).1
    1 ⟨["properties"], Visibility.inherited, "B", Fields.named []⟩ (by decide)

/-! ### Claim C6: concurrency elevation -/

theorem marker_send_not_sync (p : RsPath) (h : is_marker p "Send" = true) :
    is_marker p "Sync" = false := by
  by_contra hcon
  rw [Bool.not_eq_false] at hcon
  rcases p with ⟨lc, segs⟩
  simp only [is_marker, RsPath.isIdent, Bool.or_eq_true, Bool.and_eq_true,
    Bool.not_eq_true', beq_iff_eq] at h hcon
  rcases h with ⟨hlc, hsegs⟩ | h
  · subst hlc
    subst hsegs
    rcases hcon with ⟨_, gsegs⟩ | gn
    · exact absurd gsegs (by decide)
    · rcases gn with ((g | g) | g) | g <;> exact absurd g (by decide)
  · rcases hcon with ⟨glc, gsegs⟩ | gn
    · subst glc
      subst gsegs
      rcases h with ((g | g) | g) | g <;> exact absurd g (by decide)
    · rcases h with ((h | h) | h) | h <;> rcases gn with ((g | g) | g) | g <;>
        exact absurd (h.symm.trans g) (by decide)

theorem concurrencyScan_spec (n : String) (items : List Item) :
    ∀ send sync, concurrencyScan n items send sync =
      (send || hasMarkerImpl items n "Send", sync || hasMarkerImpl items n "Sync") := by
  induction items with
  | nil => intro send sync; simp [concurrencyScan, hasMarkerImpl]
  | cons it rest ih =>
    intro send sync
    cases it with
    | itemStruct s =>
      simp [concurrencyScan, hasMarkerImpl, isMarkerImplFor, List.any_cons, ih]
    | itemOther =>
      simp [concurrencyScan, hasMarkerImpl, isMarkerImplFor, List.any_cons, ih]
    | itemImpl i =>
      by_cases ht : type_ident i.selfTy = some n
      · cases htr : i.traitPath with
        | none =>
          simp [concurrencyScan, hasMarkerImpl, isMarkerImplFor, List.any_cons, ht, htr, ih]
        | some p =>
          by_cases hS : is_marker p "Send" = true
          · have hSy := marker_send_not_sync p hS
            simp [concurrencyScan, hasMarkerImpl, isMarkerImplFor, List.any_cons,
              ht, htr, hS, hSy, ih]
          · rw [Bool.not_eq_true] at hS
            by_cases hY : is_marker p "Sync" = true
            · simp [concurrencyScan, hasMarkerImpl, isMarkerImplFor, List.any_cons,
                ht, htr, hS, hY, ih]
            · rw [Bool.not_eq_true] at hY
              simp [concurrencyScan, hasMarkerImpl, isMarkerImplFor, List.any_cons,
                ht, htr, hS, hY, ih]
      · simp [concurrencyScan, hasMarkerImpl, isMarkerImplFor, List.any_cons, ht, ih]

/-- Claim C6 (amended): the parsed concurrency is SendSync exactly when the
base is Class, a struct was selected, and the module contains separate
implementation blocks applying both the Send and the Sync marker directly
to the selected struct type; in particular interface types never elevate. -/
theorem concurrency_sendsync_characterization (mv : Visibility) (base : TypeBase)
    (name0 : Option String) (items : List Item) :
    (parse mv base name0 items).concurrency = Concurrency.sendSync ↔
      (base = TypeBase.classBase ∧
       ∃ j s, (selectItems name0 items).1 = some (j, s) ∧
         hasMarkerImpl items s.ident "Send" = true ∧
         hasMarkerImpl items s.ident "Sync" = true) := by
  rcases hsel : selectItems name0 items with ⟨struct_, impl_, nm⟩
  simp only [parse]
  rw [hsel]
  cases struct_ with
  | none => simp [parseNoStruct]
  | some js =>
    obtain ⟨j, s⟩ := js
    cases base with
    | interfaceBase => simp [parseWithStruct]
    | classBase =>
      have hconc : (parseWithStruct TypeBase.classBase items j s impl_).concurrency =
          (if hasMarkerImpl items s.ident "Send" && hasMarkerImpl items s.ident "Sync"
           then Concurrency.sendSync else Concurrency.noneConc) := by
        simp [parseWithStruct, concurrencyScan_spec]
      rw [hconc]
      constructor
      · intro hc
        by_cases hS : hasMarkerImpl items s.ident "Send" = true
        · by_cases hY : hasMarkerImpl items s.ident "Sync" = true
          · exact ⟨rfl, j, s, rfl, hS, hY⟩
          · rw [Bool.not_eq_true] at hY
            simp [hY] at hc
        · rw [Bool.not_eq_true] at hS
          simp [hS] at hc
      · rintro ⟨-, j2, s2, hjs, hS, hY⟩
        simp only [Option.some.injEq, Prod.mk.injEq] at hjs
        obtain ⟨hj, hs⟩ := hjs
        subst hs
        simp [hS, hY]

/-- Claim C6 counterexample: an interface module whose struct has both the
Send and the Sync marker implementation blocks still parses with
concurrency None, refuting the claim for "every parsed type". -/
theorem interface_markers_not_elevated :
    (parse Visibility.inherited TypeBase.interfaceBase none
        [Item.itemStruct ⟨[], Visibility.public, "Foo", Fields.named []⟩,
         Item.itemImpl ⟨[], some ⟨false, ["Send"]⟩, Ty.typePath ⟨false, ["Foo"]⟩⟩,
         Item.itemImpl ⟨[], some ⟨false, ["Sync"]⟩, Ty.typePath ⟨false, ["Foo"]⟩⟩]
      ).concurrency = Concurrency.noneConc ∧
    hasMarkerImpl
        [Item.itemStruct ⟨[], Visibility.public, "Foo", Fields.named []⟩,
         Item.itemImpl ⟨[], some ⟨false, ["Send"]⟩, Ty.typePath ⟨false, ["Foo"]⟩⟩,
         Item.itemImpl ⟨[], some ⟨false, ["Sync"]⟩, Ty.typePath ⟨false, ["Foo"]⟩⟩]
        "Foo" "Send" = true ∧
    hasMarkerImpl
        [Item.itemStruct ⟨[], Visibility.public, "Foo", Fields.named []⟩,
         Item.itemImpl ⟨[], some ⟨false, ["Send"]⟩, Ty.typePath ⟨false, ["Foo"]⟩⟩,
         Item.itemImpl ⟨[], some ⟨false, ["Sync"]⟩, Ty.typePath ⟨false, ["Foo"]⟩⟩]
        "Foo" "Sync" = true := by
  refine ⟨by decide, by decide, by decide⟩

/-! ### Claim C7: struct visibility resolution -/

/-- Claim C7 (amended): a private (inherited) or self-scoped struct
visibility is promoted to the internal marker visibility; a super-relative
visibility with more than one path segment is rewritten by stripping one
leading segment for the external level while the original becomes the
internal level; every other explicit visibility — including a bare
`pub(super)` — is used verbatim for both levels. -/
theorem struct_visibility_rules :
    (applyStructVisibility pubSuperVis Visibility.inherited =
      (pubSuperVis, Visibility.inherited, pubSuperVis)) ∧
    (∀ p : RsPath, p.segments = ["self"] →
      applyStructVisibility pubSuperVis (Visibility.restricted p) =
        (pubSuperVis, Visibility.inherited, pubSuperVis)) ∧
    (∀ p : RsPath, 1 < p.segments.length → p.segments.headD "" = "super" →
      applyStructVisibility pubSuperVis (Visibility.restricted p) =
        (Visibility.restricted p, Visibility.restricted ⟨false, p.segments.drop 1⟩,
         Visibility.restricted p)) ∧
    (∀ sv : Visibility, otherExplicitVis sv →
      applyStructVisibility pubSuperVis sv = (sv, sv, sv)) := by
  refine ⟨rfl, ?_, ?_, ?_⟩
  · intro p hp
    simp [applyStructVisibility, hp]
  · intro p hlen hhead
    have h1 : ¬(p.segments.length = 1 ∧ p.segments.headD "" = "self") := by
      rintro ⟨h1, -⟩
      omega
    simp only [applyStructVisibility]
    rw [if_neg h1, if_pos ⟨hlen, hhead⟩]
  · intro sv hsv
    obtain ⟨hni, hres⟩ := hsv
    cases sv with
    | inherited => exact absurd rfl hni
    | public => rfl
    | crateVis => rfl
    | restricted p =>
      obtain ⟨hc1, hc2⟩ := hres p rfl
      simp only [applyStructVisibility]
      rw [if_neg hc1, if_neg hc2]

/-- Claim C7 counterexample: the claim says every super-relative visibility
is stripped; but for a bare `pub(super)` struct the parse keeps the
original `pub(super)` for the external level (the verbatim branch), which
differs from the claim-predicted stripped path. -/
theorem pub_super_used_verbatim :
    (parse Visibility.inherited TypeBase.classBase none
        [Item.itemStruct ⟨[], Visibility.restricted ⟨false, ["super"]⟩, "Foo",
            Fields.named []⟩]).vis = Visibility.restricted ⟨false, ["super"]⟩ ∧
    (parse Visibility.inherited TypeBase.classBase none
        [Item.itemStruct ⟨[], Visibility.restricted ⟨false, ["super"]⟩, "Foo",
            Fields.named []⟩]).innerVis = Visibility.restricted ⟨false, ["super"]⟩ ∧
    Visibility.restricted ⟨false, ["super"]⟩ ≠
      Visibility.restricted ⟨false, ([] : List String)⟩ := by
  refine ⟨by decide, by decide, by decide⟩

theorem struct_visibility_rules_witness :
    applyStructVisibility pubSuperVis (Visibility.restricted ⟨false, ["super", "detail"]⟩) =
      (Visibility.restricted ⟨false, ["super", "detail"]⟩,
       Visibility.restricted ⟨false, ["detail"]⟩,
       Visibility.restricted ⟨false, ["super", "detail"]⟩) :=
  struct_visibility_rules.2.2.1 ⟨false, ["super", "detail"]⟩ (by decide) (by decide)

/-! ### Claim C9: interface header field -/

/-- Claim C9 (amended): for every interface type definition whose selected
struct has named or unnamed fields, the hidden interface-header field is
prepended as the first field, before all user-declared fields; a unit
struct has no field list and is left without the header. -/
theorem interface_header_prepended (mv : Visibility) (name0 : Option String)
    (items : List Item) (j : Nat) (s : ItemStruct) (impl_ : Option (Nat × ItemImpl))
    (nm : Option String)
    (hsel : selectItems name0 items = (some (j, s), impl_, nm)) :
    (∀ fs, s.fields = Fields.named fs →
      (parse mv TypeBase.interfaceBase name0 items).fields =
        some (Fields.named (namedHeaderField :: fs))) ∧
    (∀ fs, s.fields = Fields.unnamed fs →
      (parse mv TypeBase.interfaceBase name0 items).fields =
        some (Fields.unnamed (unnamedHeaderField :: fs))) := by
  constructor <;> intro fs hf <;> simp only [parse] <;> rw [hsel] <;>
    simp [parseWithStruct, propertiesFromDeriveInput, insertInterfaceHeader, hf]

/-- Claim C9 counterexample: an interface whose selected struct is a unit
struct gets no header field at all, refuting the claim's "always prepended
as the first field". -/
theorem interface_unit_struct_no_header :
    (parse Visibility.inherited TypeBase.interfaceBase none
        [Item.itemStruct ⟨[], Visibility.public, "Iface", Fields.unit⟩]).fields =
      some Fields.unit ∧
    headerLeads ((parse Visibility.inherited TypeBase.interfaceBase none
        [Item.itemStruct ⟨[], Visibility.public, "Iface", Fields.unit⟩]).fields) = false ∧
    (parse Visibility.inherited TypeBase.interfaceBase none
        [Item.itemStruct ⟨[], Visibility.public, "Iface", Fields.unit⟩]
      ).propertiesItemIndex = some 0 := by
  refine ⟨by decide, by decide, by decide⟩

theorem interface_header_prepended_witness :
    (parse Visibility.inherited TypeBase.interfaceBase none
        [Item.itemStruct ⟨[], Visibility.public, "Iface",
            Fields.named [⟨some "a", FieldTy.user "u"⟩]⟩]).fields =
      some (Fields.named [namedHeaderField, ⟨some "a", FieldTy.user "u"⟩]) :=
  (interface_header_prepended Visibility.inherited none
      [Item.itemStruct ⟨[], Visibility.public, "Iface",
          Fields.named [⟨some "a", FieldTy.user "u"⟩]⟩]
      0 ⟨[], Visibility.public, "Iface", Fields.named [⟨some "a", FieldTy.user "u"⟩]⟩
      none (some "Iface") (by decide)).1
    [⟨some "a", FieldTy.user "u"⟩] rfl

end GObj
